import Mathlib

/-!
# Verification of the gohttp diagnostic client

A shallow embedding of the request-execution and TLS-introspection engine of
the `gohttp` command-line tool, together with proofs about the embedded
definitions.  The embedding follows the current revision of the program:
`main.go` (the variant with `bodyonly` and custom `-header` arguments),
the matching `options.go` revision (the one declaring `headers arrayFlag`),
and `tls.go`.

Conventions of the embedding:
* Go byte slices become `List Nat`; a `net.IP` is its byte list.
* `time.Duration` values become `Nat` tick counts; the durations consumed by
  the network phases of one exchange are supplied as an environment.
* Side-effecting calls (DNS lookup, file reads, the HTTP exchange itself)
  are supplied as explicit environment functions; printed output is recorded
  as lists of structured events rather than strings.
* `os.Exit`, `log.Fatal` and Go runtime panics become an `ExecError` value.
-/

namespace Gohttp

/-- Abort modes of the Go program: `os.Exit code`, `log.Fatal msg`, or a Go
runtime panic (e.g. an index-out-of-range access). -/
inductive ExecError where
  | exit : Nat → ExecError
  | fatal : String → ExecError
  | panicked : ExecError
deriving DecidableEq, Repr

/-- The `Options` struct of the current `options.go` revision (the one with
`bodyonly` and the `headers arrayFlag` field).  The `timeout` and `retries`
fields are carried but unused by the embedded logic, as in the source. -/
structure Options where
  ipv6only      : Bool := false
  ipv4only      : Bool := false
  timeout       : Nat := 5
  retries       : Nat := 0
  printbody     : Bool := false
  bodyonly      : Bool := false
  queryall      : Bool := false
  sni           : String := ""
  headers       : List String := []
  cacert        : String := ""
  clientcert    : String := ""
  clientkey     : String := ""
  username      : String := ""
  password      : String := ""
  showcert      : Bool := false
  showcertchain : Bool := false
  noredirect    : Bool := false
  noverify      : Bool := false
  useragent     : String := "gohttp"
deriving DecidableEq, Repr

/-- Locate the first `':'` in a character list, returning the characters
before it and after it.  This is the search step of Go's
`strings.SplitN(s, ":", 2)`. -/
def splitFirstColon : List Char → Option (List Char × List Char)
  | [] => none
  | c :: rest =>
    if c = ':' then some ([], rest)
    else
      match splitFirstColon rest with
      | none => none
      | some (a, b) => some (c :: a, b)

/-- Go's `strings.SplitN(s, ":", 2)`: the whole string when it holds no
colon, otherwise the part before the first colon and the part after it. -/
def splitN2colon (s : String) : List String :=
  match splitFirstColon s.data with
  | none => [s]
  | some (a, b) => [String.mk a, String.mk b]

/-- Whether a string contains a colon (so that `splitN2colon` yields two
parts). -/
def hasColon (s : String) : Bool :=
  (splitFirstColon s.data).isSome

/-- A `net.IP`: a byte list, of length 4 or 16 for well-formed addresses. -/
def IP : Type := List Nat
deriving DecidableEq, Repr

/-- Go's `isZeros` helper from `net`: every byte is zero. -/
def isZeros (bs : List Nat) : Bool := bs.all (· == 0)

/-- Go's `net.IP.To4`: the 4-byte form of an address, when it has one
(a 4-byte address, or a 16-byte IPv4-mapped address), else `nil`. -/
def to4 (ip : IP) : Option IP :=
  let bs : List Nat := ip
  if bs.length == 4 then some ip
  else if bs.length == 16 && isZeros (bs.take 10)
          && bs.get? 10 == some 0xff && bs.get? 11 == some 0xff then
    some (bs.drop 12)
  else none

/-- Whether `ip.To4() != nil` in the Go source: the address has a 4-byte
form and therefore counts as IPv4. -/
def isIPv4 (ip : IP) : Bool := (to4 ip).isSome

/-- Group a byte list into 16-bit words, as the textual IPv6 form does. -/
def words16 : List Nat → List Nat
  | a :: b :: rest => (a * 256 + b) :: words16 rest
  | _ => []

/-- Textual form of an address as used by `addressString`: dotted quad when
the address has a 4-byte form, otherwise colon-separated hex groups.  (Go's
`net.IP.String` additionally compresses runs of zero groups; that textual
compression keeps the colons and so does not affect the bracketing logic
below, and no claim depends on the exact IPv6 text.) -/
def ipString (ip : IP) : String :=
  match to4 ip with
  | some [a, b, c, d] =>
    toString a ++ "." ++ toString b ++ "." ++ toString c ++ "." ++ toString d
  | _ =>
    String.intercalate ":" ((words16 ip).map (fun w => String.mk (Nat.toDigits 16 w)))

/-- `addressString` from `main.go`: join address text and port, bracketing
the address when its text contains a colon (an IPv6 literal). -/
def addressString (ip : IP) (port : String) : String :=
  if !((ipString ip).contains ':') then ipString ip ++ ":" ++ port
  else "[" ++ ipString ip ++ "]" ++ ":" ++ port

/-- The filtering loop of `getIpList` from `main.go`: skip IPv4 entries
under `-6`, skip non-IPv4 entries under `-4`, keep the rest in order. -/
def getIpListLoop (opts : Options) : List IP → List IP
  | [] => []
  | ip :: rest =>
    let isipv4 := isIPv4 ip
    if opts.ipv6only && isipv4 then getIpListLoop opts rest
    else if opts.ipv4only && !isipv4 then getIpListLoop opts rest
    else ip :: getIpListLoop opts rest

/-- `getIpList` from `main.go`, after the `net.LookupIP` call (the lookup
itself is an environment input of `runMain` below): the resolved list is
returned unchanged when no family filter is set, else filtered by the loop. -/
def getIpList (opts : Options) (iplist : List IP) : List IP :=
  if !(opts.ipv6only || opts.ipv4only) then iplist
  else getIpListLoop opts iplist

/-- The family predicate the specification describes: under `ipv4-only` an
entry survives exactly when it has a 4-byte form, under `ipv6-only` exactly
when it does not.  (Spec-side characterisation, compared with `getIpList`.) -/
def familyMatch (opts : Options) (ip : IP) : Bool :=
  if opts.ipv4only then isIPv4 ip else !isIPv4 ip

/-! ## Flag processing (`doFlags`, current `options.go` revision)

`flag.Parse` itself is out of scope; `ParsedFlags` is the state right after
it: the option fields as set by the flags, the `-authbasic` string, the
`-h` flag and the positional arguments. -/

/-- The inputs `doFlags` works on after `flag.Parse` has run. -/
structure ParsedFlags where
  opts : Options := {}
  authbasic : String := ""
  help : Bool := false
  args : List String := []
deriving DecidableEq, Repr

/-- The `authbasic` step of `doFlags`: when `-authbasic` was given, split it
on the first colon into username and password.  `tmp[1]` on a colon-free
string is an index-out-of-range panic in Go. -/
def applyAuth (pf : ParsedFlags) : Except ExecError Options :=
  if pf.authbasic = "" then .ok pf.opts
  else
    match splitN2colon pf.authbasic with
    | [u, p] => .ok { pf.opts with username := u, password := p }
    | _ => .error .panicked

/-- The validation and implication steps of `doFlags`: reject `-4` together
with `-6` (exit 4), force `queryall` under a family filter, and force
`noredirect` under `queryall`. -/
def normalizeFlags (o : Options) : Except ExecError Options :=
  if o.ipv6only && o.ipv4only then .error (.exit 4)
  else
    let o1 := if o.ipv6only || o.ipv4only then { o with queryall := true } else o
    let o2 := if o1.queryall then { o1 with noredirect := true } else o1
    .ok o2

/-- `doFlags` from the current `options.go`, after `flag.Parse`: apply the
`authbasic` split, validate and normalize the flags, then require exactly
one positional argument (else print usage and exit 4) and return it as the
URL together with the final options. -/
def doFlagsModel (pf : ParsedFlags) : Except ExecError (Options × String) :=
  match applyAuth pf with
  | .error e => .error e
  | .ok o =>
    match normalizeFlags o with
    | .error e => .error e
    | .ok o2 =>
      match pf.args with
      | [a] => if pf.help then .error (.exit 4) else .ok (o2, a)
      | _ => .error (.exit 4)

/-! ## Request construction (`getRequest`, `main.go`) -/

/-- Outcome of `getRequest`: the ordered header additions of the built
request, or a Go panic.  (`http.NewRequest` itself cannot fail here: `main`
only reaches `getRequest` for a URL that `url.Parse` already accepted.) -/
inductive BuildOutcome where
  | ok : List (String × String) → BuildOutcome
  | panicked : BuildOutcome
deriving DecidableEq, Repr

/-- The custom-header loop of `getRequest`: each `-header` argument is split
on the first colon into `key := tmp[0]` and `val := tmp[1]`; on a colon-free
argument `tmp` has a single element and `tmp[1]` panics. -/
def addHeaders : List String → List (String × String) → BuildOutcome
  | [], acc => .ok acc
  | h :: rest, acc =>
    match splitN2colon h with
    | [k, v] => addHeaders rest (acc ++ [(k, v)])
    | _ => .panicked

/-- `getRequest` from `main.go`: a GET request carrying the `User-Agent`
header followed by the custom headers in argument order. -/
def getRequest (opts : Options) : BuildOutcome :=
  addHeaders opts.headers [("User-Agent", opts.useragent)]

/-- All `-header` arguments contain a colon, so the header loop of
`getRequest` cannot panic. -/
def headersWellFormed (hs : List String) : Bool := hs.all hasColon

/-! ## TLS configuration (`getTLSConfig`, `tls.go`)

File contents and key-pair loading are environment functions; which files
`getTLSConfig` actually touches is recorded as a list of `TLSEvent`s. -/

/-- File accesses performed while building the TLS configuration. -/
inductive TLSEvent where
  | readCAFile : String → TLSEvent
  | loadKeyPair : String → String → TLSEvent
deriving DecidableEq, Repr

/-- The fields of Go's `tls.Config` that `getTLSConfig` sets.  `rootCAs` is
the certificate pool built from the CA bundle bytes (`none` = system roots);
`certificates` holds the loaded client credential. -/
structure TLSConfigModel where
  serverName : String := ""
  insecureSkipVerify : Bool := false
  rootCAs : Option (List Nat) := none
  certificates : List Nat := []
deriving DecidableEq, Repr

/-- The file-access environment of `getTLSConfig`: `ioutil.ReadFile` and
`tls.LoadX509KeyPair` (the loaded credential is an opaque id). -/
structure FSEnv where
  readFile : String → Except String (List Nat)
  loadKeyPair : String → String → Except String Nat

/-- The verification block of `getTLSConfig`: under `-noverify` disable
certificate validation and touch no file; otherwise, when a CA bundle path
was given, read it (`log.Fatal` on failure) and install the pool built from
its bytes as the root store. -/
def verifyStep (opts : Options) (fs : FSEnv) (cfg : TLSConfigModel) :
    Except ExecError (TLSConfigModel × List TLSEvent) :=
  if opts.noverify then .ok ({ cfg with insecureSkipVerify := true }, [])
  else if opts.cacert ≠ "" then
    match fs.readFile opts.cacert with
    | .error e => .error (.fatal e)
    | .ok bytes => .ok ({ cfg with rootCAs := some bytes }, [.readCAFile opts.cacert])
  else .ok (cfg, [])

/-- The client-certificate block of `getTLSConfig`: when a client-cert path
was given, load the cert/key pair (`log.Fatal` on failure) and present it. -/
def clientCertStep (opts : Options) (fs : FSEnv) (c : TLSConfigModel)
    (evs : List TLSEvent) : Except ExecError (TLSConfigModel × List TLSEvent) :=
  if opts.clientcert ≠ "" then
    match fs.loadKeyPair opts.clientcert opts.clientkey with
    | .error e => .error (.fatal e)
    | .ok cred =>
      .ok ({ c with certificates := [cred] },
           evs ++ [.loadKeyPair opts.clientcert opts.clientkey])
  else .ok (c, evs)

/-- The opening block of `getTLSConfig`: a fresh `tls.Config`, with the SNI
override installed when one was given. -/
def sniStep (opts : Options) : TLSConfigModel :=
  let base : TLSConfigModel := {}
  if opts.sni ≠ "" then { base with serverName := opts.sni } else base

/-- `getTLSConfig` from `tls.go`: set the SNI override when given, then the
verification block, then the client-certificate block. -/
def getTLSConfig (opts : Options) (fs : FSEnv) :
    Except ExecError (TLSConfigModel × List TLSEvent) :=
  match verifyStep opts fs (sniStep opts) with
  | .error e => .error e
  | .ok (c, evs) => clientCertStep opts fs c evs

/-- Whether the event list contains a CA-bundle file read. -/
def readsCA (evs : List TLSEvent) : Bool :=
  evs.any fun e =>
    match e with
    | .readCAFile _ => true
    | _ => false

/-! ## TLS reporting (`printTLSinfo`, `tls.go`) -/

/-- The TLS state of a completed secure exchange (`response.TLS`).
Certificates are opaque ids. -/
structure TLSState where
  version : Nat := 0
  didResume : Bool := false
  cipherSuite : Nat := 0
  alpn : String := ""
  serverName : String := ""
  peerCertificates : List Nat := []
  verifiedChains : List (List Nat) := []
deriving DecidableEq, Repr

/-- The blocks `printTLSinfo` emits. -/
inductive TLSOut where
  | noTLSLine : TLSOut
  | connInfo : Nat → Bool → Nat → String → String → TLSOut
  | fullChainBlock : Nat → TLSOut
  | verifiedChainsBlock : Nat → TLSOut
  | leafCertBlock : Nat → TLSOut
deriving DecidableEq, Repr

/-- `printTLSinfo` from `tls.go`: report "NONE" for a plaintext exchange;
otherwise the session parameters, then under `-showcertchain` the full peer
chain (`printCertChainDetails`) followed by the verified chains
(`printVerifiedChains`), or else under `-showcert` the leaf certificate
block alone.  (`PeerCertificates[0]` is modelled with a default for the
unreachable empty-chain case.) -/
def printTLSinfo (opts : Options) (tls : Option TLSState) : List TLSOut :=
  match tls with
  | none => [.noTLSLine]
  | some s =>
    .connInfo s.version s.didResume s.cipherSuite s.alpn s.serverName ::
      (if opts.showcertchain then
        [.fullChainBlock s.peerCertificates.length,
         .verifiedChainsBlock s.verifiedChains.length]
      else if opts.showcert then [.leafCertBlock (s.peerCertificates.headD 0)]
      else [])

/-! ## Request execution (`readResponse`, `main.go`)

One network exchange is abstracted by an `Exchange` environment value: what
`client.Do` returns (an error, or a response whose headers took `doTime`
ticks to arrive) and what `ioutil.ReadAll` on the body then yields (the body
bytes, an optional read error, and the `bodyTime` ticks the read took). -/

/-- The response fields the embedding tracks (`http.Response`). -/
structure Response where
  statusCode : Nat := 0
  tls : Option TLSState := none
deriving DecidableEq, Repr

/-- Environment describing one request attempt: the outcome of `client.Do`
and, when it succeeded, the outcome of reading the body. -/
structure Exchange where
  doErr : Option String := none
  doTime : Nat := 0
  response : Response := {}
  bodyBytes : List Nat := []
  bodyErr : Option String := none
  bodyTime : Nat := 0
deriving Repr

/-- The `Result` struct of `main.go`.  Field defaults are the Go zero
values `result = new(Result)` starts from. -/
structure Result where
  response : Option Response := none
  body : List Nat := []
  responsetime : Nat := 0
  err : Option String := none
deriving DecidableEq, Repr

/-- `readResponse` from the current `main.go`: start the clock, run
`client.Do`; on failure store only the error and return.  Otherwise read the
whole body, then record the elapsed time since the clock started, the
response, the body bytes, and `ReadAll`'s error (if any).  The basic-auth
request mutation (`SetBasicAuth`) alters the outgoing request, not the
`Result`, and is not tracked. -/
def readResponse (ex : Exchange) : Result :=
  match ex.doErr with
  | some e => { err := some e }
  | none =>
    { response := some ex.response
      body := ex.bodyBytes
      responsetime := ex.doTime + ex.bodyTime
      err := ex.bodyErr }

/-! ## Orchestration (`querySingle` and `main`, `main.go`)

Printed output becomes a list of structured events; an attempt against a
dial address is visible as the `clientBuilt` event `getClient` contributes. -/

/-- Observable events of one invocation. -/
inductive Event where
  | resolveCall : String → Event
  | prologueOut : Event
  | connectHeader : IP → Event
  | clientBuilt : String → Event
  | errorPrinted : String → Event
  | reportBlock : Nat → Event
  | bodyPrinted : List Nat → Event
deriving DecidableEq, Repr

/-- `querySingle` from the current `main.go`: build a client for the dial
address (`""` = system resolution), read the response; on error print the
error and return; otherwise print the response-time/TLS/status/header block
unless `-bodyonly`, and the body under `-printbody` or `-bodyonly`. -/
def querySingleEvents (opts : Options) (ex : Exchange) (addr : String) : List Event :=
  let r := readResponse ex
  Event.clientBuilt addr ::
    match r.err with
    | some e => [Event.errorPrinted e]
    | none =>
      (if !opts.bodyonly then [Event.reportBlock r.responsetime] else []) ++
        (if opts.printbody || opts.bodyonly then [Event.bodyPrinted r.body] else [])

/-- The `-queryall` loop of `main`: for each resolved address in order,
print the `CONNECT` header line and run `querySingle` against a freshly
built client fixed to that address.  `env` maps each dial address to its
exchange outcome. -/
def probeAll (opts : Options) (port : String) (env : String → Exchange) :
    List IP → List Event
  | [] => []
  | ip :: rest =>
    Event.connectHeader ip ::
      (querySingleEvents opts (env (addressString ip port)) (addressString ip port) ++
        probeAll opts port env rest)

/-- The dial address of an attempt event (one `clientBuilt` event per
`getClient` call), `none` for every other event. -/
def attemptToAddr : Event → Option String
  | Event.clientBuilt a => some a
  | _ => none

/-- The dial addresses of the attempts in an event list, in order. -/
def attemptsOf (evs : List Event) : List String := evs.filterMap attemptToAddr

/-- `main` from the current `main.go`, as a function of its environments:
`doFlags`; parse the URL into hostname and port (`url2addressport`, failure
is `log.Fatal`); resolve the hostname (`net.LookupIP` inside `getIpList`,
failure is `log.Fatal`) and filter by family; print the prologue unless
`-bodyonly`; build the request (a colon-free `-header` argument panics
here); then probe every filtered address under `-queryall`, else probe once
with system resolution.  Returns the events emitted and `some` abort when
the run died early. -/
def runMain (pf : ParsedFlags) (parseURL : String → Except String (String × String))
    (resolver : String → Except String (List IP)) (env : String → Exchange) :
    List Event × Option ExecError :=
  match doFlagsModel pf with
  | .error e => ([], some e)
  | .ok (opts, urlstring) =>
    match parseURL urlstring with
    | .error e => ([], some (.fatal e))
    | .ok (hostname, port) =>
      match resolver hostname with
      | .error e => ([Event.resolveCall hostname], some (.fatal e))
      | .ok iplist0 =>
        let iplist := getIpList opts iplist0
        let ev1 := Event.resolveCall hostname ::
          (if !opts.bodyonly then [Event.prologueOut] else [])
        match getRequest opts with
        | .panicked => (ev1, some .panicked)
        | .ok _ =>
          if opts.queryall then
            (ev1 ++ probeAll opts port env iplist, none)
          else
            (ev1 ++ querySingleEvents opts (env "") "", none)

/-! ## Helper lemmas -/

/-- `splitN2colon` yields either the whole string or exactly two parts. -/
lemma splitN2colon_shape (s : String) :
    splitN2colon s = [s] ∨ ∃ a b, splitN2colon s = [a, b] := by
  unfold splitN2colon
  cases h : splitFirstColon s.data with
  | none => exact Or.inl rfl
  | some p => exact Or.inr ⟨String.mk p.1, String.mk p.2, rfl⟩

/-- A colon-free string is returned whole by `splitN2colon`. -/
lemma splitN2colon_of_not_hasColon (s : String) (h : hasColon s = false) :
    splitN2colon s = [s] := by
  unfold splitN2colon
  unfold hasColon at h
  cases hc : splitFirstColon s.data with
  | none => rfl
  | some p => rw [hc] at h; simp at h

/-- A string containing a colon splits into exactly two parts. -/
lemma splitN2colon_of_hasColon (s : String) (h : hasColon s = true) :
    ∃ a b, splitN2colon s = [a, b] := by
  unfold splitN2colon
  unfold hasColon at h
  cases hc : splitFirstColon s.data with
  | none => rw [hc] at h; simp at h
  | some p => exact ⟨String.mk p.1, String.mk p.2, rfl⟩

/-- The family-filter loop is `List.filter` by the 4-byte-form test when
only `-4` is set. -/
lemma getIpListLoop_v4 (opts : Options) (h4 : opts.ipv4only = true)
    (h6 : opts.ipv6only = false) (ips : List IP) :
    getIpListLoop opts ips = ips.filter (fun ip => isIPv4 ip) := by
  induction ips with
  | nil => rfl
  | cons ip rest ih =>
    simp only [getIpListLoop, h4, h6, List.filter]
    cases hip : isIPv4 ip <;> simp [hip, ih]

/-- The family-filter loop is `List.filter` by the negated 4-byte-form test
when only `-6` is set. -/
lemma getIpListLoop_v6 (opts : Options) (h4 : opts.ipv4only = false)
    (h6 : opts.ipv6only = true) (ips : List IP) :
    getIpListLoop opts ips = ips.filter (fun ip => !isIPv4 ip) := by
  induction ips with
  | nil => rfl
  | cons ip rest ih =>
    simp only [getIpListLoop, h4, h6, List.filter]
    cases hip : isIPv4 ip <;> simp [hip, ih]

/-- `normalizeFlags` establishes the family-filter/queryall/noredirect
implication chain. -/
lemma normalizeFlags_invariant (o o2 : Options) (h : normalizeFlags o = .ok o2) :
    ((o2.ipv4only = true ∨ o2.ipv6only = true) → o2.queryall = true) ∧
    (o2.queryall = true → o2.noredirect = true) := by
  unfold normalizeFlags at h
  cases h6 : o.ipv6only <;> cases h4 : o.ipv4only <;>
    cases hq : o.queryall <;> simp [h6, h4, hq] at h <;>
    (subst h; simp [h6, h4, hq])

/-- `applyAuth` never changes the family-filter flags. -/
lemma applyAuth_preserves_family (pf : ParsedFlags) (o : Options)
    (h : applyAuth pf = .ok o) :
    o.ipv4only = pf.opts.ipv4only ∧ o.ipv6only = pf.opts.ipv6only := by
  unfold applyAuth at h
  by_cases hab : pf.authbasic = ""
  · simp [hab] at h; rw [← h]; exact ⟨rfl, rfl⟩
  · simp [hab] at h
    rcases splitN2colon_shape pf.authbasic with h1 | ⟨a, b, h2⟩
    · rw [h1] at h; simp at h
    · rw [h2] at h; simp at h; rw [← h]; exact ⟨rfl, rfl⟩

/-- A successful `doFlags` run factors through `applyAuth` and
`normalizeFlags`. -/
lemma doFlagsModel_ok_extract (pf : ParsedFlags) (o : Options) (u : String)
    (h : doFlagsModel pf = .ok (o, u)) :
    ∃ o0, applyAuth pf = .ok o0 ∧ normalizeFlags o0 = .ok o := by
  unfold doFlagsModel at h
  cases ha : applyAuth pf with
  | error e => rw [ha] at h; simp at h
  | ok o0 =>
    rw [ha] at h
    dsimp only at h
    cases hn : normalizeFlags o0 with
    | error e => rw [hn] at h; simp at h
    | ok o2 =>
      rw [hn] at h
      dsimp only at h
      refine ⟨o0, rfl, ?_⟩
      cases hargs : pf.args with
      | nil => rw [hargs] at h; simp at h
      | cons a rest =>
        cases rest with
        | nil =>
          rw [hargs] at h
          by_cases hh : pf.help = true
          · simp [hh] at h
          · simp [hh] at h
            rw [hn, h.1]
        | cons b r2 => rw [hargs] at h; simp at h

/-- The header loop panics as soon as it reaches a colon-free argument. -/
lemma addHeaders_panics (hs : List String) :
    ∀ acc, (∃ hd ∈ hs, hasColon hd = false) → addHeaders hs acc = .panicked := by
  induction hs with
  | nil => intro acc h; obtain ⟨hd, hmem, _⟩ := h; simp at hmem
  | cons a rest ih =>
    intro acc h
    obtain ⟨hd, hmem, hnc⟩ := h
    unfold addHeaders
    rcases List.mem_cons.mp hmem with heq | hmem'
    · subst heq
      rw [splitN2colon_of_not_hasColon _ hnc]
    · cases hca : hasColon a
      · rw [splitN2colon_of_not_hasColon _ hca]
      · obtain ⟨x, y, hxy⟩ := splitN2colon_of_hasColon _ hca
        rw [hxy]
        exact ih _ ⟨hd, hmem', hnc⟩

/-- The header loop succeeds when every argument has a colon. -/
lemma addHeaders_ok (hs : List String) :
    ∀ acc, headersWellFormed hs = true → ∃ l, addHeaders hs acc = .ok l := by
  induction hs with
  | nil => intro acc _; exact ⟨acc, rfl⟩
  | cons a rest ih =>
    intro acc h
    simp only [headersWellFormed, List.all_cons, Bool.and_eq_true] at h
    obtain ⟨x, y, hxy⟩ := splitN2colon_of_hasColon a h.1
    unfold addHeaders
    rw [hxy]
    exact ih _ h.2

/-- `getRequest` panics when some `-header` argument is colon-free. -/
lemma getRequest_panics (opts : Options)
    (h : ∃ hd ∈ opts.headers, hasColon hd = false) :
    getRequest opts = .panicked :=
  addHeaders_panics opts.headers _ h

/-- `getRequest` builds a request when every `-header` argument has a
colon. -/
lemma getRequest_ok (opts : Options) (h : headersWellFormed opts.headers = true) :
    ∃ l, getRequest opts = .ok l :=
  addHeaders_ok opts.headers _ h

/-- `attemptsOf` distributes over concatenation. -/
lemma attemptsOf_append (a b : List Event) :
    attemptsOf (a ++ b) = attemptsOf a ++ attemptsOf b := by
  simp [attemptsOf, List.filterMap_append]

/-- A non-attempt event contributes nothing to `attemptsOf`. -/
lemma attemptsOf_cons_other (e : Event) (l : List Event)
    (h : attemptToAddr e = none) : attemptsOf (e :: l) = attemptsOf l := by
  simp [attemptsOf, List.filterMap_cons, h]

/-- One `querySingle` call always makes exactly one attempt, against its
dial address, whatever the exchange outcome. -/
lemma attemptsOf_querySingle (opts : Options) (ex : Exchange) (addr : String) :
    attemptsOf (querySingleEvents opts ex addr) = [addr] := by
  unfold querySingleEvents
  cases herr : (readResponse ex).err with
  | some e => simp [herr, attemptsOf, attemptToAddr]
  | none =>
    cases hb : opts.bodyonly <;> cases hp : opts.printbody <;>
      simp [herr, hb, hp, attemptsOf, attemptToAddr, List.filterMap_cons]

/-- The `-queryall` loop is the concatenation, in address order, of each
address's `CONNECT` line followed by its `querySingle` events. -/
lemma probeAll_eq_bind (opts : Options) (port : String) (env : String → Exchange)
    (ips : List IP) :
    probeAll opts port env ips = ips.flatMap (fun ip =>
      Event.connectHeader ip ::
        querySingleEvents opts (env (addressString ip port)) (addressString ip port)) := by
  induction ips with
  | nil => rfl
  | cons ip rest ih => simp [probeAll, ih]

/-- The `-queryall` loop makes exactly one attempt per address, in order,
each against the fixed `ip:port` dial address. -/
lemma attemptsOf_probeAll (opts : Options) (port : String) (env : String → Exchange)
    (ips : List IP) :
    attemptsOf (probeAll opts port env ips) =
      ips.map (fun ip => addressString ip port) := by
  induction ips with
  | nil => rfl
  | cons ip rest ih =>
    simp only [probeAll, List.map_cons]
    rw [attemptsOf_cons_other (Event.connectHeader ip) _ rfl, attemptsOf_append,
      attemptsOf_querySingle, ih]
    rfl

/-- A successful run in `-queryall` mode: the resolve call, the prologue
(unless `-bodyonly`), then the probe loop over the filtered address list,
with no abort. -/
lemma runMain_queryall (pf : ParsedFlags)
    (parseURL : String → Except String (String × String))
    (resolver : String → Except String (List IP)) (env : String → Exchange)
    (o : Options) (u host port : String) (ips : List IP)
    (hflags : doFlagsModel pf = .ok (o, u))
    (hparse : parseURL u = .ok (host, port))
    (hres : resolver host = .ok ips)
    (hreq : headersWellFormed o.headers = true)
    (hq : o.queryall = true) :
    runMain pf parseURL resolver env =
      (Event.resolveCall host ::
        ((if !o.bodyonly then [Event.prologueOut] else []) ++
          probeAll o port env (getIpList o ips)), none) := by
  unfold runMain
  rw [hflags]; dsimp only
  rw [hparse]; dsimp only
  rw [hres]; dsimp only
  obtain ⟨l, hl⟩ := getRequest_ok o hreq
  rw [hl]; dsimp only
  simp [hq]

/-- The fresh configuration of the SNI step carries no root store. -/
lemma sniStep_rootCAs (opts : Options) : (sniStep opts).rootCAs = none := by
  unfold sniStep
  by_cases hs : opts.sni = "" <;> simp [hs]

/-- What the verification block establishes, for a starting configuration
with no root store: verification is disabled under `-noverify`; the CA file
is read, and a root store installed, exactly when verification is on and a
CA path was given. -/
lemma verifyStep_spec (opts : Options) (fs : FSEnv) (cfg c : TLSConfigModel)
    (evs : List TLSEvent) (hroot : cfg.rootCAs = none)
    (h : verifyStep opts fs cfg = .ok (c, evs)) :
    (opts.noverify = true → c.insecureSkipVerify = true) ∧
    (readsCA evs = true ↔ (opts.noverify = false ∧ opts.cacert ≠ "")) ∧
    (c.rootCAs.isSome = true ↔ (opts.noverify = false ∧ opts.cacert ≠ "")) := by
  unfold verifyStep at h
  cases hv : opts.noverify with
  | true =>
    simp [hv] at h
    obtain ⟨hc, hevs⟩ := h
    subst hc; subst hevs
    simp [readsCA, hroot]
  | false =>
    by_cases hca : opts.cacert = ""
    · simp [hv, hca] at h
      obtain ⟨hc, hevs⟩ := h
      subst hc; subst hevs
      simp [readsCA, hroot, hca]
    · simp [hv, hca] at h
      cases hrf : fs.readFile opts.cacert with
      | error e => rw [hrf] at h; simp at h
      | ok bytes =>
        rw [hrf] at h
        simp at h
        obtain ⟨hc, hevs⟩ := h
        subst hc; subst hevs
        simp [readsCA, hca]

/-- The client-certificate block never touches verification, the root store,
or the CA-read events. -/
lemma clientCertStep_spec (opts : Options) (fs : FSEnv) (c0 : TLSConfigModel)
    (evs0 : List TLSEvent) (c : TLSConfigModel) (evs : List TLSEvent)
    (h : clientCertStep opts fs c0 evs0 = .ok (c, evs)) :
    c.insecureSkipVerify = c0.insecureSkipVerify ∧ c.rootCAs = c0.rootCAs ∧
    readsCA evs = readsCA evs0 := by
  unfold clientCertStep at h
  by_cases hcc : opts.clientcert = ""
  · simp [hcc] at h
    obtain ⟨hc, hevs⟩ := h
    subst hc; subst hevs
    exact ⟨rfl, rfl, rfl⟩
  · simp [hcc] at h
    cases hlk : fs.loadKeyPair opts.clientcert opts.clientkey with
    | error e => rw [hlk] at h; simp at h
    | ok cred =>
      rw [hlk] at h
      simp at h
      obtain ⟨hc, hevs⟩ := h
      subst hc; subst hevs
      refine ⟨rfl, rfl, ?_⟩
      simp [readsCA, List.any_append]

/-! ## Concrete demonstration values -/

/-- An IPv4 literal, `192.0.2.1`. -/
def ipV4demo : IP := [192, 0, 2, 1]

/-- An IPv6 literal, `2001:db8::1`. -/
def ipV6demo : IP := [0x20, 0x01, 0x0d, 0xb8, 0, 0, 0, 0, 0, 0, 0, 0, 0, 0, 0, 1]

/-- Options with only `-4` set. -/
def optsV4 : Options := { ipv4only := true }

/-- Parsed flags for `gohttp -4 https://example.test/`. -/
def pfV4 : ParsedFlags :=
  { opts := { ipv4only := true }, args := ["https://example.test/"] }

/-- The options `doFlags` produces from `pfV4`. -/
def optsV4Norm : Options := { ipv4only := true, queryall := true, noredirect := true }

/-- Parsed flags with both `-4` and `-6` set. -/
def pfBoth : ParsedFlags :=
  { opts := { ipv4only := true, ipv6only := true }, args := ["https://example.test/"] }

/-- A URL-parse environment resolving to `example.test` port 443. -/
def demoParseURL : String → Except String (String × String) :=
  fun _ => .ok ("example.test", "443")

/-- A DNS environment resolving every name to the one IPv6 address. -/
def demoResolver6 : String → Except String (List IP) := fun _ => .ok [ipV6demo]

/-- An exchange environment where every attempt succeeds instantly. -/
def demoEnvOK : String → Exchange := fun _ => {}

/-- An exchange whose body read fails after the headers arrived. -/
def exMidReadFail : Exchange :=
  { doErr := none, doTime := 5, response := {}, bodyBytes := [104, 105],
    bodyErr := some "unexpected EOF", bodyTime := 7 }

/-- A successful exchange taking 5 ticks to the headers and 7 more for the
body. -/
def exTimed : Exchange := { doErr := none, doTime := 5, bodyTime := 7 }

/-! ## Claims -/

/-- C1 (counterexample): in the mid-read-failure scenario — `client.Do`
succeeded, `ioutil.ReadAll` failed — the `Result` has BOTH its response and
its error populated, refuting "never both". -/
theorem result_both_populated_on_midread :
    (readResponse exMidReadFail).response.isSome = true ∧
    (readResponse exMidReadFail).err.isSome = true := by decide

/-- C1 (amended): a `Result` never has neither part populated, and it has
both parts populated exactly in the mid-read-failure case (`client.Do`
succeeded, the body read failed); in the success, timeout and
handshake-failure scenarios exactly one part is populated. -/
theorem result_population (ex : Exchange) :
    ((readResponse ex).response.isSome || (readResponse ex).err.isSome) = true ∧
    ((readResponse ex).response.isSome && (readResponse ex).err.isSome) =
      (ex.doErr.isNone && ex.bodyErr.isSome) := by
  unfold readResponse
  cases hd : ex.doErr <;> cases hb : ex.bodyErr <;> simp [hd, hb]

/-- C2 (counterexample): for an exchange whose headers arrived after 5 ticks
and whose body took 7 more ticks to read, the reported response time is 12,
not 5: the reported latency is not the headers-available interval. -/
theorem responsetime_not_headers_interval :
    (readResponse exTimed).responsetime ≠ exTimed.doTime ∧
    (readResponse exTimed).responsetime = exTimed.doTime + exTimed.bodyTime := by
  decide

/-- C2 (amended): for every successful exchange, the reported latency
interval starts immediately before the request is handed to the client and
stops only after the body has been read to completion, so the reported
response time is the header latency plus the body-read time. -/
theorem responsetime_includes_body_read (ex : Exchange) (h : ex.doErr = none) :
    (readResponse ex).responsetime = ex.doTime + ex.bodyTime := by
  unfold readResponse; rw [h]

/-- C2 (witness). -/
theorem responsetime_includes_body_read_witness :
    exTimed.doErr = none ∧
    (readResponse exTimed).responsetime = exTimed.doTime + exTimed.bodyTime :=
  ⟨rfl, responsetime_includes_body_read exTimed rfl⟩

/-- C5: every configuration that `doFlags` accepts satisfies the invariant:
a family filter forces `queryall`, and `queryall` forces `noredirect`. -/
theorem doFlags_flag_invariant (pf : ParsedFlags) (o : Options) (u : String)
    (h : doFlagsModel pf = .ok (o, u)) :
    ((o.ipv4only = true ∨ o.ipv6only = true) → o.queryall = true) ∧
    (o.queryall = true → o.noredirect = true) := by
  obtain ⟨o0, _, hn⟩ := doFlagsModel_ok_extract pf o u h
  exact normalizeFlags_invariant o0 o hn

/-- C5 (witness). -/
theorem doFlags_flag_invariant_witness :
    doFlagsModel pfV4 = .ok (optsV4Norm, "https://example.test/") ∧
    (((optsV4Norm.ipv4only = true ∨ optsV4Norm.ipv6only = true) →
        optsV4Norm.queryall = true) ∧
      (optsV4Norm.queryall = true → optsV4Norm.noredirect = true)) :=
  ⟨rfl, doFlags_flag_invariant pfV4 optsV4Norm "https://example.test/" rfl⟩

/-- C8: under exactly one family filter, `getIpList` returns precisely the
entries matching the requested family (IPv4 exactly when the entry has a
4-byte form), in their original relative order; in particular the result is
a sublist of the unfiltered list. -/
theorem getIpList_family_filter (opts : Options) (ips : List IP)
    (h : opts.ipv4only ≠ opts.ipv6only) :
    getIpList opts ips = ips.filter (familyMatch opts) ∧
    (getIpList opts ips).Sublist ips := by
  have key : getIpList opts ips = ips.filter (familyMatch opts) := by
    cases h4 : opts.ipv4only <;> cases h6 : opts.ipv6only
    · exfalso; rw [h4, h6] at h; exact h rfl
    · unfold getIpList familyMatch
      simp [h4, h6, getIpListLoop_v6 opts h4 h6]
    · unfold getIpList familyMatch
      simp [h4, h6, getIpListLoop_v4 opts h4 h6]
    · exfalso; rw [h4, h6] at h; exact h rfl
  exact ⟨key, key ▸ List.filter_sublist ips⟩

/-- C8 (witness). -/
theorem getIpList_family_filter_witness :
    optsV4.ipv4only ≠ optsV4.ipv6only ∧
    (getIpList optsV4 [ipV6demo, ipV4demo] =
        List.filter (familyMatch optsV4) [ipV6demo, ipV4demo] ∧
      (getIpList optsV4 [ipV6demo, ipV4demo]).Sublist [ipV6demo, ipV4demo]) :=
  ⟨by decide, getIpList_family_filter optsV4 [ipV6demo, ipV4demo] (by decide)⟩

/-- C9: with both family filters set, the run emits no event at all — in
particular no resolution or other network call — and aborts; when the
`authbasic` string is absent the abort is the usage exit (code 4) from
configuration validation. -/
theorem both_family_filters_rejected (pf : ParsedFlags)
    (parseURL : String → Except String (String × String))
    (resolver : String → Except String (List IP)) (env : String → Exchange)
    (h4 : pf.opts.ipv4only = true) (h6 : pf.opts.ipv6only = true) :
    (runMain pf parseURL resolver env).1 = [] ∧
    (runMain pf parseURL resolver env).2.isSome = true ∧
    (pf.authbasic = "" →
      (runMain pf parseURL resolver env).2 = some (ExecError.exit 4)) := by
  have hdf : ∃ e, doFlagsModel pf = .error e ∧
      (pf.authbasic = "" → e = ExecError.exit 4) := by
    by_cases hab : pf.authbasic = ""
    · refine ⟨ExecError.exit 4, ?_, fun _ => rfl⟩
      unfold doFlagsModel applyAuth normalizeFlags
      simp [hab, h4, h6]
    · cases ha : applyAuth pf with
      | error e =>
        refine ⟨e, ?_, fun hc => absurd hc hab⟩
        unfold doFlagsModel
        rw [ha]
      | ok o0 =>
        obtain ⟨hp4, hp6⟩ := applyAuth_preserves_family pf o0 ha
        refine ⟨ExecError.exit 4, ?_, fun _ => rfl⟩
        unfold doFlagsModel
        rw [ha]
        dsimp only
        unfold normalizeFlags
        simp [hp4, hp6, h4, h6]
  obtain ⟨e, he, hcond⟩ := hdf
  unfold runMain
  rw [he]
  refine ⟨rfl, rfl, fun hab => ?_⟩
  simp [hcond hab]

/-- C9 (witness). -/
theorem both_family_filters_rejected_witness :
    (pfBoth.opts.ipv4only = true ∧ pfBoth.opts.ipv6only = true) ∧
    ((runMain pfBoth demoParseURL demoResolver6 demoEnvOK).1 = [] ∧
      (runMain pfBoth demoParseURL demoResolver6 demoEnvOK).2.isSome = true ∧
      (pfBoth.authbasic = "" →
        (runMain pfBoth demoParseURL demoResolver6 demoEnvOK).2 =
          some (ExecError.exit 4))) :=
  ⟨⟨rfl, rfl⟩,
   both_family_filters_rejected pfBoth demoParseURL demoResolver6 demoEnvOK rfl rfl⟩

/-- C10: when both `-showcert` and `-showcertchain` are set, a secure
exchange renders the session line, the full peer chain and the verified
chains, and the leaf-only certificate block is not emitted. -/
theorem showcertchain_takes_precedence (opts : Options) (s : TLSState)
    (hc : opts.showcertchain = true) (_hl : opts.showcert = true) :
    printTLSinfo opts (some s) =
      [TLSOut.connInfo s.version s.didResume s.cipherSuite s.alpn s.serverName,
       TLSOut.fullChainBlock s.peerCertificates.length,
       TLSOut.verifiedChainsBlock s.verifiedChains.length] ∧
    (∀ c, TLSOut.leafCertBlock c ∉ printTLSinfo opts (some s)) := by
  unfold printTLSinfo
  simp [hc]

/-- Options with both certificate-display flags set. -/
def optsBothShow : Options := { showcert := true, showcertchain := true }

/-- A demonstration TLS session state. -/
def tlsDemo : TLSState :=
  { version := 0x0304, cipherSuite := 4865, alpn := "h2",
    serverName := "example.test", peerCertificates := [1, 2],
    verifiedChains := [[1, 2, 3]] }

/-- C10 (witness). -/
theorem showcertchain_takes_precedence_witness :
    (optsBothShow.showcertchain = true ∧ optsBothShow.showcert = true) ∧
    (printTLSinfo optsBothShow (some tlsDemo) =
        [TLSOut.connInfo tlsDemo.version tlsDemo.didResume tlsDemo.cipherSuite
            tlsDemo.alpn tlsDemo.serverName,
         TLSOut.fullChainBlock tlsDemo.peerCertificates.length,
         TLSOut.verifiedChainsBlock tlsDemo.verifiedChains.length] ∧
      (∀ c, TLSOut.leafCertBlock c ∉ printTLSinfo optsBothShow (some tlsDemo))) :=
  ⟨⟨rfl, rfl⟩, showcertchain_takes_precedence optsBothShow tlsDemo rfl rfl⟩

/-- C3 (counterexample): `gohttp -4` against a host that resolves only to an
IPv6 address.  Resolution succeeds with a nonempty list, the family filter
empties it, yet the run reports no error (`none` abort) and simply performs
zero probe attempts. -/
theorem empty_filtered_list_cx :
    demoResolver6 "example.test" = .ok [ipV6demo] ∧
    getIpList optsV4Norm [ipV6demo] = [] ∧
    (runMain pfV4 demoParseURL demoResolver6 demoEnvOK).2 = none ∧
    attemptsOf (runMain pfV4 demoParseURL demoResolver6 demoEnvOK).1 = [] := by
  refine ⟨rfl, by decide, rfl, rfl⟩

/-- C3 (amended): when resolution succeeds but the family filter leaves an
empty list, the program reports no error and does not abort: it completes
normally having made zero probe attempts (under `-queryall`, which a family
filter forces). -/
theorem empty_filtered_list_silent (pf : ParsedFlags)
    (parseURL : String → Except String (String × String))
    (resolver : String → Except String (List IP)) (env : String → Exchange)
    (o : Options) (u host port : String) (ips : List IP)
    (hflags : doFlagsModel pf = .ok (o, u))
    (hparse : parseURL u = .ok (host, port))
    (hres : resolver host = .ok ips)
    (hreq : headersWellFormed o.headers = true)
    (hq : o.queryall = true)
    (hempty : getIpList o ips = []) :
    (runMain pf parseURL resolver env).2 = none ∧
    attemptsOf (runMain pf parseURL resolver env).1 = [] := by
  rw [runMain_queryall pf parseURL resolver env o u host port ips hflags hparse
    hres hreq hq, hempty]
  refine ⟨rfl, ?_⟩
  rw [attemptsOf_cons_other (Event.resolveCall host) _ rfl]
  cases hb : o.bodyonly <;>
    simp [hb, probeAll, attemptsOf, attemptToAddr, List.filterMap_cons]

/-- C3 (witness). -/
theorem empty_filtered_list_silent_witness :
    (doFlagsModel pfV4 = .ok (optsV4Norm, "https://example.test/") ∧
      demoParseURL "https://example.test/" = .ok ("example.test", "443") ∧
      demoResolver6 "example.test" = .ok [ipV6demo] ∧
      headersWellFormed optsV4Norm.headers = true ∧
      optsV4Norm.queryall = true ∧
      getIpList optsV4Norm [ipV6demo] = []) ∧
    ((runMain pfV4 demoParseURL demoResolver6 demoEnvOK).2 = none ∧
      attemptsOf (runMain pfV4 demoParseURL demoResolver6 demoEnvOK).1 = []) :=
  ⟨⟨rfl, rfl, rfl, rfl, rfl, by decide⟩,
   empty_filtered_list_silent pfV4 demoParseURL demoResolver6 demoEnvOK
     optsV4Norm "https://example.test/" "example.test" "443" [ipV6demo]
     rfl rfl rfl rfl rfl (by decide)⟩

/-- Parsed flags for `gohttp -header XAuthToken https://example.test/`: the
one custom header argument has no colon. -/
def pfBadHeader : ParsedFlags :=
  { opts := { headers := ["XAuthToken"] }, args := ["https://example.test/"] }

/-- C4 (counterexample): a colon-free `-header` argument is NOT rejected as
a configuration error: `doFlags` accepts the configuration, the run performs
the hostname lookup (a network call) and only then dies with an
index-out-of-range panic while building the request; no request attempt is
made. -/
theorem header_no_colon_cx :
    doFlagsModel pfBadHeader =
      .ok ({ headers := ["XAuthToken"] }, "https://example.test/") ∧
    (runMain pfBadHeader demoParseURL demoResolver6 demoEnvOK).2 =
      some ExecError.panicked ∧
    Event.resolveCall "example.test" ∈
      (runMain pfBadHeader demoParseURL demoResolver6 demoEnvOK).1 ∧
    attemptsOf (runMain pfBadHeader demoParseURL demoResolver6 demoEnvOK).1 = [] := by
  refine ⟨rfl, rfl, ?_, rfl⟩
  exact List.mem_cons_self _ _

/-- C4 (amended): a `-header` argument without a colon is not validated as a
configuration error; request construction panics with an index-out-of-range
access, so the run aborts — after hostname resolution, but before any
request attempt is made. -/
theorem header_no_colon_aborts (pf : ParsedFlags)
    (parseURL : String → Except String (String × String))
    (resolver : String → Except String (List IP)) (env : String → Exchange)
    (o : Options) (u host port : String) (ips : List IP) (hd : String)
    (hflags : doFlagsModel pf = .ok (o, u))
    (hparse : parseURL u = .ok (host, port))
    (hres : resolver host = .ok ips)
    (hmem : hd ∈ o.headers) (hnc : hasColon hd = false) :
    (runMain pf parseURL resolver env).2 = some ExecError.panicked ∧
    attemptsOf (runMain pf parseURL resolver env).1 = [] := by
  unfold runMain
  rw [hflags]; dsimp only
  rw [hparse]; dsimp only
  rw [hres]; dsimp only
  rw [getRequest_panics o ⟨hd, hmem, hnc⟩]
  dsimp only
  refine ⟨rfl, ?_⟩
  rw [attemptsOf_cons_other (Event.resolveCall host) _ rfl]
  cases hb : o.bodyonly <;>
    simp [hb, attemptsOf, attemptToAddr, List.filterMap_cons]

/-- C4 (witness). -/
theorem header_no_colon_aborts_witness :
    (doFlagsModel pfBadHeader =
        .ok ({ headers := ["XAuthToken"] }, "https://example.test/") ∧
      demoParseURL "https://example.test/" = .ok ("example.test", "443") ∧
      demoResolver6 "example.test" = .ok [ipV6demo] ∧
      "XAuthToken" ∈ Options.headers { headers := ["XAuthToken"] } ∧
      hasColon "XAuthToken" = false) ∧
    ((runMain pfBadHeader demoParseURL demoResolver6 demoEnvOK).2 =
        some ExecError.panicked ∧
      attemptsOf (runMain pfBadHeader demoParseURL demoResolver6 demoEnvOK).1 = []) :=
  ⟨⟨rfl, rfl, rfl, List.mem_cons_self _ _, by decide⟩,
   header_no_colon_aborts pfBadHeader demoParseURL demoResolver6 demoEnvOK
     { headers := ["XAuthToken"] } "https://example.test/" "example.test" "443"
     [ipV6demo] "XAuthToken" rfl rfl rfl (List.mem_cons_self _ _) (by decide)⟩

/-- C6: in `-queryall` mode a successful run emits, after the resolve call
and prologue, the probe loop over the filtered addresses with no abort; the
loop is exactly one `CONNECT` header line followed by that address's
`querySingle` events per address, in resolution order; and whatever each
exchange's outcome, exactly one attempt is made per address, in order, each
against a client freshly fixed to that address's `ip:port` dial string. -/
theorem queryall_probes_every_address (pf : ParsedFlags)
    (parseURL : String → Except String (String × String))
    (resolver : String → Except String (List IP)) (env : String → Exchange)
    (o : Options) (u host port : String) (ips : List IP)
    (hflags : doFlagsModel pf = .ok (o, u))
    (hparse : parseURL u = .ok (host, port))
    (hres : resolver host = .ok ips)
    (hreq : headersWellFormed o.headers = true)
    (hq : o.queryall = true) :
    runMain pf parseURL resolver env =
      (Event.resolveCall host ::
        ((if !o.bodyonly then [Event.prologueOut] else []) ++
          probeAll o port env (getIpList o ips)), none) ∧
    probeAll o port env (getIpList o ips) =
      (getIpList o ips).flatMap (fun ip =>
        Event.connectHeader ip ::
          querySingleEvents o (env (addressString ip port)) (addressString ip port)) ∧
    attemptsOf (probeAll o port env (getIpList o ips)) =
      (getIpList o ips).map (fun ip => addressString ip port) :=
  ⟨runMain_queryall pf parseURL resolver env o u host port ips hflags hparse
      hres hreq hq,
   probeAll_eq_bind o port env (getIpList o ips),
   attemptsOf_probeAll o port env (getIpList o ips)⟩

/-- Parsed flags for `gohttp -queryall http://example.test/`. -/
def pfQA : ParsedFlags :=
  { opts := { queryall := true }, args := ["http://example.test/"] }

/-- The options `doFlags` produces from `pfQA`. -/
def optsQANorm : Options := { queryall := true, noredirect := true }

/-- A DNS environment resolving to two addresses, IPv4 first. -/
def demoResolver2 : String → Except String (List IP) :=
  fun _ => .ok [ipV4demo, ipV6demo]

/-- An exchange environment where the attempt against the first (IPv4)
address fails at connect time and every other attempt succeeds. -/
def envFirstFails : String → Exchange :=
  fun addr =>
    if addr = "192.0.2.1:443" then { doErr := some "connect: connection refused" }
    else {}

/-- C6 (witness): two resolved addresses, the first attempt failing — the
loop still makes both attempts in order. -/
theorem queryall_probes_every_address_witness :
    (doFlagsModel pfQA = .ok (optsQANorm, "http://example.test/") ∧
      demoParseURL "http://example.test/" = .ok ("example.test", "443") ∧
      demoResolver2 "example.test" = .ok [ipV4demo, ipV6demo] ∧
      headersWellFormed optsQANorm.headers = true ∧
      optsQANorm.queryall = true) ∧
    (runMain pfQA demoParseURL demoResolver2 envFirstFails =
        (Event.resolveCall "example.test" ::
          ((if !optsQANorm.bodyonly then [Event.prologueOut] else []) ++
            probeAll optsQANorm "443" envFirstFails
              (getIpList optsQANorm [ipV4demo, ipV6demo])), none) ∧
      probeAll optsQANorm "443" envFirstFails
          (getIpList optsQANorm [ipV4demo, ipV6demo]) =
        (getIpList optsQANorm [ipV4demo, ipV6demo]).flatMap (fun ip =>
          Event.connectHeader ip ::
            querySingleEvents optsQANorm (envFirstFails (addressString ip "443"))
              (addressString ip "443")) ∧
      attemptsOf (probeAll optsQANorm "443" envFirstFails
          (getIpList optsQANorm [ipV4demo, ipV6demo])) =
        (getIpList optsQANorm [ipV4demo, ipV6demo]).map
          (fun ip => addressString ip "443")) :=
  ⟨⟨rfl, rfl, rfl, rfl, rfl⟩,
   queryall_probes_every_address pfQA demoParseURL demoResolver2 envFirstFails
     optsQANorm "http://example.test/" "example.test" "443" [ipV4demo, ipV6demo]
     rfl rfl rfl rfl rfl⟩

/-- C7: whenever `getTLSConfig` succeeds, verification-skip disables
certificate validation; the CA bundle file is read exactly when
verification-skip is off and a CA path is set (in particular it is never
read under `-noverify`, even with a CA path configured); and a CA root
store replaces the system roots under exactly the same condition. -/
theorem noverify_precludes_ca_load (opts : Options) (fs : FSEnv)
    (c : TLSConfigModel) (evs : List TLSEvent)
    (h : getTLSConfig opts fs = .ok (c, evs)) :
    (opts.noverify = true → c.insecureSkipVerify = true) ∧
    (readsCA evs = true ↔ (opts.noverify = false ∧ opts.cacert ≠ "")) ∧
    (c.rootCAs.isSome = true ↔ (opts.noverify = false ∧ opts.cacert ≠ "")) := by
  unfold getTLSConfig at h
  cases hvs : verifyStep opts fs (sniStep opts) with
  | error e => rw [hvs] at h; simp at h
  | ok p =>
    rw [hvs] at h
    dsimp only at h
    obtain ⟨c1, evs1⟩ := p
    obtain ⟨g1, g2, g3⟩ :=
      verifyStep_spec opts fs (sniStep opts) c1 evs1 (sniStep_rootCAs opts) hvs
    obtain ⟨k1, k2, k3⟩ := clientCertStep_spec opts fs c1 evs1 c evs h
    refine ⟨fun hv => ?_, ?_, ?_⟩
    · rw [k1]; exact g1 hv
    · rw [k3]; exact g2
    · rw [k2]; exact g3

/-- Options requesting verification skip while also naming a CA bundle. -/
def optsNoVerify : Options := { cacert := "ca.pem", noverify := true }

/-- A file environment where every read and key-pair load succeeds. -/
def fsDemo : FSEnv :=
  { readFile := fun _ => .ok [48, 49], loadKeyPair := fun _ _ => .ok 7 }

/-- C7 (witness): with `-noverify` and a CA path set, the built
configuration skips verification, reads no CA file and installs no root
store. -/
theorem noverify_precludes_ca_load_witness :
    getTLSConfig optsNoVerify fsDemo = .ok ({ insecureSkipVerify := true }, []) ∧
    ((optsNoVerify.noverify = true →
        TLSConfigModel.insecureSkipVerify { insecureSkipVerify := true } = true) ∧
      (readsCA [] = true ↔ (optsNoVerify.noverify = false ∧ optsNoVerify.cacert ≠ "")) ∧
      (Option.isSome (TLSConfigModel.rootCAs { insecureSkipVerify := true }) = true ↔
        (optsNoVerify.noverify = false ∧ optsNoVerify.cacert ≠ ""))) :=
  ⟨rfl, noverify_precludes_ca_load optsNoVerify fsDemo
    { insecureSkipVerify := true } [] rfl⟩

end Gohttp
